import Mathlib

/-!
Verification of the declarative endpoint-dispatch engine of the sfcc-mcp-server
repository: endpoint registry loading (endpoint-loader), request-parameter
classification and search-body synthesis (data-api-handler's
`buildRequestParams`), URL construction and dispatch normalization
(data-api-client's `buildUrl` / `executeEndpoint`), and the capability-gated
tool router.

JavaScript runtime values flowing through argument bags and request bodies are
modelled by the inductive type `JVal` (numbers as integers; all values the
claims exercise are integral).  JavaScript objects (string-keyed,
insertion-ordered, unique keys) are modelled as association lists together
with `recGet` / `recSet`, where `recSet` overwrites an existing key in place
and appends a fresh key at the end, exactly as JS property assignment does.
-/

set_option autoImplicit false

/-- JavaScript runtime values as they appear in tool argument bags, query
parameter records and request bodies. -/
inductive JVal where
  | vUndefined
  | vNull
  | vBool (b : Bool)
  | vNum (n : Int)
  | vStr (s : String)
  | vArr (xs : List JVal)
  | vObj (fields : List (String × JVal))

/-- JavaScript truthiness (`if (x)`): undefined, null, false, 0 and the empty
string are falsy; every object and array is truthy. -/
def JVal.truthy : JVal → Bool
  | .vUndefined => false
  | .vNull => false
  | .vBool b => b
  | .vNum n => !(n == 0)
  | .vStr s => !(s == "")
  | .vArr _ => true
  | .vObj _ => true

/-- Models `value === undefined`. -/
def JVal.isJsUndefined : JVal → Bool
  | .vUndefined => true
  | _ => false

/-- Models `value === null`. -/
def JVal.isJsNull : JVal → Bool
  | .vNull => true
  | _ => false

/-- Models `value === ''` (strict equality: only the empty string matches). -/
def JVal.isEmptyStr : JVal → Bool
  | .vStr s => s == ""
  | _ => false

mutual

/-- How a value renders inside `Array.prototype.join` (null and undefined
render as the empty string there). -/
def JVal.elemStr : JVal → String
  | .vUndefined => ""
  | .vNull => ""
  | .vBool b => if b then "true" else "false"
  | .vNum n => toString n
  | .vStr s => s
  | .vArr xs => JVal.arrJoin xs
  | .vObj _ => "[object Object]"

/-- Models `Array.prototype.toString`: elements joined with commas. -/
def JVal.arrJoin : List JVal → String
  | [] => ""
  | [x] => JVal.elemStr x
  | x :: y :: ys => JVal.elemStr x ++ "," ++ JVal.arrJoin (y :: ys)

end

/-- The JavaScript `String(value)` coercion. -/
def JVal.jsToString : JVal → String
  | .vUndefined => "undefined"
  | .vNull => "null"
  | .vBool b => if b then "true" else "false"
  | .vNum n => toString n
  | .vStr s => s
  | .vArr xs => JVal.arrJoin xs
  | .vObj _ => "[object Object]"

/-- Property read on a JS object / argument bag: `m[k]`, `Map.get`;
`none` plays the role of `undefined` for an absent key. -/
def recGet {α : Type} : List (String × α) → String → Option α
  | [], _ => none
  | (k', v) :: rest, k => if k' == k then some v else recGet rest k

/-- Key-presence test (`k in m`, `Map.has`). -/
def recHas {α : Type} (m : List (String × α)) (k : String) : Bool :=
  (recGet m k).isSome

/-- Property write on a JS object (`m[k] = v`, `Map.set`): an existing key is
overwritten in place keeping its position, a fresh key is appended. -/
def recSet {α : Type} : List (String × α) → String → α → List (String × α)
  | [], k, v => [(k, v)]
  | (k', v') :: rest, k, v =>
    if k' == k then (k, v) :: rest else (k', v') :: recSet rest k v

/-- Models `Object.assign(target, source)`: assign every field of `src`, in order,
on top of `tgt`. -/
def recAssign {α : Type} (tgt src : List (String × α)) : List (String × α) :=
  src.foldl (fun m kv => recSet m kv.1 kv.2) tgt

/-- Does `pat` match at the head of `s`? -/
def prefMatches : List Char → List Char → Bool
  | [], _ => true
  | _ :: _, [] => false
  | a :: as, b :: bs => a == b && prefMatches as bs

/-- Does `pat` occur anywhere in `s`? -/
def subOccurs (pat : List Char) : List Char → Bool
  | [] => prefMatches pat []
  | c :: rest => prefMatches pat (c :: rest) || subOccurs pat rest

/-- Models `String.prototype.includes(pat)`. -/
def jsIncludes (s pat : String) : Bool :=
  subOccurs pat.data s.data

/-- Replace the first occurrence of `pat` in `s` by `rep`
(`String.prototype.replace` with a plain-string pattern). -/
def replaceFirstL (pat rep : List Char) : List Char → List Char
  | [] => if prefMatches pat [] then rep else []
  | c :: rest =>
    if prefMatches pat (c :: rest) then rep ++ (c :: rest).drop pat.length
    else c :: replaceFirstL pat rep rest

/-- Models `s.replace(pat, rep)` on strings. -/
def jsReplaceFirst (s pat rep : String) : String :=
  ⟨replaceFirstL pat.data rep.data s.data⟩

/-- The characters `encodeURIComponent` leaves unescaped:
`A-Z a-z 0-9 - _ . ! ~ * ' ( )`. -/
def uriUnreserved (c : Char) : Bool :=
  c.isAlpha || c.isDigit ||
    c == '-' || c == '_' || c == '.' || c == '!' || c == '~' ||
    c == '*' || c == '\'' || c == '(' || c == ')'

/-- Upper-case hexadecimal digit for `n < 16`. -/
def hexDigitUpper (n : Nat) : Char :=
  if n < 10 then Char.ofNat ('0'.toNat + n) else Char.ofNat ('A'.toNat + n - 10)

/-- UTF-8 bytes of one Unicode scalar value. -/
def utf8Bytes (c : Char) : List Nat :=
  let n := c.toNat
  if n < 0x80 then [n]
  else if n < 0x800 then [0xC0 + n / 64, 0x80 + n % 64]
  else if n < 0x10000 then
    [0xE0 + n / 4096, 0x80 + (n / 64) % 64, 0x80 + n % 64]
  else
    [0xF0 + n / 0x40000, 0x80 + (n / 4096) % 64, 0x80 + (n / 64) % 64,
      0x80 + n % 64]

/-- Percent escape `%XY` of one byte. -/
def percentByte (b : Nat) : List Char :=
  ['%', hexDigitUpper (b / 16), hexDigitUpper (b % 16)]

/-- Models `encodeURIComponent`: unreserved characters pass through, every other
character is replaced by the `%XY` escapes of its UTF-8 bytes. -/
def encodeURIComponent (s : String) : String :=
  ⟨(s.data.map (fun c =>
      if uriUnreserved c then [c]
      else ((utf8Bytes c).map percentByte).flatten)).flatten⟩

/-- Models `Array.prototype.join(sep)`. -/
def joinWith (sep : String) : List String → String
  | [] => ""
  | [x] => x
  | x :: y :: ys => x ++ sep ++ joinWith sep (y :: ys)

/-- Endpoint parameter definition (`EndpointParam` in types.ts). -/
structure EndpointParam where
  name : String
  description : String
  type : String
  required : Bool

/-- Endpoint descriptor (`Endpoint` in types.ts).  `method` is kept as a raw
string because `executeEndpoint` defends against unrecognized method strings
at runtime. -/
structure Endpoint where
  toolName : String
  path : String
  description : String
  method : String
  parameters : List EndpointParam
  defaultBody : Option (List (String × JVal))
  apiType : String
  requiresSiteId : Option Bool

/-- Models `DataAPIRequestParams` in types.ts. -/
structure RequestParams where
  pathParams : List (String × String)
  queryParams : List (String × JVal)
  body : Option (List (String × JVal))

/-- Models `DataAPIResponse` in types.ts. -/
structure DataAPIResponse where
  data : JVal
  status : Nat
  success : Bool
  error : Option String

/-- What the catalog file yields when `loadEndpoints` runs: the read/parse
threw, or it parsed but carried no `endpoints` array, or it carried one. -/
inductive CatalogLoad where
  | failure
  | noArray
  | endpoints (es : List Endpoint)

/-- The single built-in fallback descriptor of
`EndpointLoader.getDefaultEndpoints`. -/
def getCatalogsEndpoint : Endpoint :=
  { toolName := "get_catalogs"
    path := "/catalogs"
    description := "Get a list of available catalogs"
    method := "GET"
    parameters := []
    defaultBody := none
    apiType := "ocapi"
    requiresSiteId := some false }

/-- Models `EndpointLoader.getDefaultEndpoints`. -/
def getDefaultEndpoints : List Endpoint :=
  [getCatalogsEndpoint]

/-- The loader's state: the `endpoints` array and the `endpointMap` built for
lookup by tool name. -/
structure LoaderState where
  endpoints : List Endpoint
  endpointMap : List (String × Endpoint)

/-- Models `EndpointLoader.loadEndpoints`: on a parsed `endpoints` array, store it and
index every descriptor into `endpointMap` (a JS `Map.set` per descriptor, in
order); when the parsed config has no array, keep both empty; when reading or
parsing throws, fall back to `getDefaultEndpoints` for the `endpoints` array —
the catch branch never touches `endpointMap`. -/
def loadEndpoints : CatalogLoad → LoaderState
  | .failure => { endpoints := getDefaultEndpoints, endpointMap := [] }
  | .noArray => { endpoints := [], endpointMap := [] }
  | .endpoints es =>
    { endpoints := es
      endpointMap := es.foldl (fun m e => recSet m e.toolName e) [] }

/-- Models `EndpointLoader.getEndpoint`. -/
def getEndpoint (st : LoaderState) (toolName : String) : Option Endpoint :=
  recGet st.endpointMap toolName

/-- Models `EndpointLoader.hasEndpoint`. -/
def hasEndpoint (st : LoaderState) (toolName : String) : Bool :=
  recHas st.endpointMap toolName

/-- Models `EndpointLoader.getEndpoints` (returns a copy of the array). -/
def getEndpoints (st : LoaderState) : List Endpoint :=
  st.endpoints

/-- Models `EndpointLoader.getToolNames`. -/
def getToolNames (st : LoaderState) : List String :=
  st.endpoints.map Endpoint.toolName

/-- One HTTP request as handed to the authenticated transport
(`this.get/post/put/patch/delete`). -/
structure TransportCall where
  method : String
  url : String
  body : Option (List (String × JVal))

/-- Outcome of one transport call: a payload (together with the HTTP status
the transport saw, which the dispatcher never propagates), or a thrown
error with its message. -/
inductive TransportResult where
  | ok (status : Nat) (payload : JVal)
  | err (message : String)

/-- Models `DataAPIClient.buildRequestBody`: shallow-clone `defaultBody` if defined,
then `Object.assign` the caller-supplied body (if truthy) on top. -/
def buildRequestBody (endpoint : Endpoint) (params : RequestParams) :
    List (String × JVal) :=
  let body := endpoint.defaultBody.getD []
  match params.body with
  | some b => recAssign body b
  | none => body

/-- Is a query-parameter value kept by `buildUrl`'s filter
(`value !== undefined && value !== null && value !== ''`)? -/
def queryValKept (v : JVal) : Bool :=
  !(v.isJsUndefined || v.isJsNull || v.isEmptyStr)

/-- Models `DataAPIClient.buildUrl`: replace each `{key}` of `pathParams` (first
occurrence, percent-encoded value), filter and string-coerce `queryParams`
into a fresh record, render it `key=value` percent-encoded joined by `&`, and
append `?query` only when the query string is non-empty. -/
def buildUrl (endpoint : Endpoint) (params : RequestParams) : String :=
  let path := params.pathParams.foldl
    (fun p kv => jsReplaceFirst p ("\x7b" ++ kv.1 ++ "\x7d") (encodeURIComponent kv.2))
    endpoint.path
  let queryRecord := params.queryParams.foldl
    (fun m kv => if queryValKept kv.2 then recSet m kv.1 kv.2.jsToString else m)
    ([] : List (String × String))
  let queryString := joinWith "&"
    (queryRecord.map (fun kv =>
      encodeURIComponent kv.1 ++ "=" ++ encodeURIComponent kv.2))
  if queryString == "" then path else path ++ "?" ++ queryString

/-- Models `DataAPIClient.executeEndpoint`: registry miss short-circuits with a 400
envelope and no transport call; otherwise the URL is built, the verb-specific
transport call is made (GET/DELETE without a body, POST/PUT/PATCH with the
built body), a successful call is normalized to `{success:true, status:200}`
regardless of the transport's real status, a thrown transport error is caught
into `{success:false, status:500}`, and an unrecognized method string throws
`Unsupported HTTP method` which the same catch turns into a 500 envelope.
The returned list records the transport calls performed. -/
def executeEndpoint (st : LoaderState) (transport : TransportCall → TransportResult)
    (toolName : String) (params : RequestParams) :
    DataAPIResponse × List TransportCall :=
  match getEndpoint st toolName with
  | none =>
    ({ data := .vNull, status := 400, success := false
       error := some ("Unknown endpoint: " ++ toolName) }, [])
  | some endpoint =>
    let url := buildUrl endpoint params
    let doCall (body? : Option (List (String × JVal))) :
        DataAPIResponse × List TransportCall :=
      let call : TransportCall := { method := endpoint.method, url := url, body := body? }
      match transport call with
      | .ok _ payload =>
        ({ data := payload, status := 200, success := true, error := none }, [call])
      | .err msg =>
        ({ data := .vNull, status := 500, success := false, error := some msg }, [call])
    if endpoint.method == "GET" then doCall none
    else if endpoint.method == "POST" then doCall (some (buildRequestBody endpoint params))
    else if endpoint.method == "PUT" then doCall (some (buildRequestBody endpoint params))
    else if endpoint.method == "PATCH" then doCall (some (buildRequestBody endpoint params))
    else if endpoint.method == "DELETE" then doCall none
    else
      ({ data := .vNull, status := 500, success := false
         error := some ("Unsupported HTTP method: " ++ endpoint.method) }, [])

/-- Models `DataAPIClient`'s mutable instance state relevant to the site selector. -/
structure ClientState where
  siteId : Option String

/-- Models `DataAPIClient.getSiteId`. -/
def getSiteId (c : ClientState) : Option String :=
  c.siteId

/-- Models `DataAPIClient.setSiteId`. -/
def setSiteId (c : ClientState) (s : String) : ClientState :=
  { c with siteId := some s }

/-- A tool argument bag (`ToolArguments`): a JS object of JSON values. -/
def Args : Type := List (String × JVal)

/-- Is the argument skipped by the classification loop
(`value === undefined || value === null || value === ''`, with an absent key
reading as `undefined`)? -/
def skipArg : Option JVal → Bool
  | none => true
  | some v => v.isJsUndefined || v.isJsNull || v.isEmptyStr

/-- Does `{name}` appear inside the descriptor's path
(`endpoint.path.includes`)? -/
def pathHasPlaceholder (endpoint : Endpoint) (name : String) : Bool :=
  jsIncludes endpoint.path ("\x7b" ++ name ++ "\x7d")

/-- One iteration of `buildRequestParams`' classification loop over the
declared parameters: skip absent/null/empty arguments, route path-template
names into `pathParams` (string-coerced), everything else except the reserved
name `query` into `queryParams`. -/
def classifyStep (endpoint : Endpoint) (args : Args)
    (pq : List (String × String) × List (String × JVal)) (param : EndpointParam) :
    List (String × String) × List (String × JVal) :=
  let value := recGet args param.name
  if skipArg value then pq
  else
    match value with
    | none => pq
    | some v =>
      if pathHasPlaceholder endpoint param.name then
        (recSet pq.1 param.name v.jsToString, pq.2)
      else if param.name != "query" then
        (pq.1, recSet pq.2 param.name v)
      else pq

/-- The classification loop of `buildRequestParams` over all declared
parameters. -/
def classifyParams (endpoint : Endpoint) (args : Args) :
    List (String × String) × List (String × JVal) :=
  endpoint.parameters.foldl (classifyStep endpoint args) ([], [])

/-- Models `DataAPIToolHandler.getSearchFieldsForTool`. -/
def getSearchFieldsForTool (toolName : String) : List String :=
  if toolName == "search_products" then ["id", "name"]
  else if toolName == "search_customers" then ["email", "first_name", "last_name"]
  else if toolName == "search_orders" then ["order_no", "customer_email"]
  else ["id", "name"]

/-- The text-query body value built for a truthy free-text `query` argument. -/
def textQueryVal (toolName : String) (q : JVal) : JVal :=
  .vObj [("text_query", .vObj
    [("fields", .vArr ((getSearchFieldsForTool toolName).map .vStr)),
     ("search_phrase", q)])]

/-- The exact-match term-query body value built for a truthy `campaign_id`
argument of the promotion-search tool. -/
def termQueryVal (campaignId : JVal) : JVal :=
  .vObj [("term_query", .vObj
    [("fields", .vArr [.vStr "campaign_id"]),
     ("operator", .vStr "is"),
     ("values", .vArr [campaignId])])]

/-- Models `if (args.query) body.query = {text_query: ...}`. -/
def applyTextQuery (toolName : String) (args : Args)
    (b : List (String × JVal)) : List (String × JVal) :=
  match recGet args "query" with
  | some q => if q.truthy then recSet b "query" (textQueryVal toolName q) else b
  | none => b

/-- Models `if (args.count !== undefined) body.count = args.count`. -/
def applyCount (args : Args) (b : List (String × JVal)) : List (String × JVal) :=
  match recGet args "count" with
  | some c => if c.isJsUndefined then b else recSet b "count" c
  | none => b

/-- Models `if (args.start !== undefined) body.start = args.start`. -/
def applyStart (args : Args) (b : List (String × JVal)) : List (String × JVal) :=
  match recGet args "start" with
  | some c => if c.isJsUndefined then b else recSet b "start" c
  | none => b

/-- Models `if (args.expand) body.expand = args.expand.split(',').map(s => s.trim())`;
calling `.split` on a truthy non-string throws a TypeError, surfaced here as
`Except.error`. -/
def applyExpand (args : Args) (b : List (String × JVal)) :
    Except String (List (String × JVal)) :=
  match recGet args "expand" with
  | some v =>
    if v.truthy then
      match v with
      | .vStr s =>
        .ok (recSet b "expand"
          (.vArr (((s.splitOn ",").map (fun t => t.trim)).map .vStr)))
      | _ => .error "args.expand.split is not a function"
    else .ok b
  | none => .ok b

/-- Models `if (toolName === 'search_promotions' && args.campaign_id)
body.query = {term_query: ...}` — the promotion-specific override, applied
last. -/
def applyCampaignOverride (toolName : String) (args : Args)
    (b : List (String × JVal)) : List (String × JVal) :=
  if toolName == "search_promotions" then
    match recGet args "campaign_id" with
    | some cid => if cid.truthy then recSet b "query" (termQueryVal cid) else b
    | none => b
  else b

/-- The body-synthesis part of `buildRequestParams` for a POST endpoint with
a default body: seed with `defaultBody`, apply text query, count, start,
expand, then the promotion campaign override. -/
def buildSearchBody (toolName : String) (args : Args)
    (db : List (String × JVal)) : Except String (List (String × JVal)) :=
  match applyExpand args (applyStart args (applyCount args
      (applyTextQuery toolName args db))) with
  | .error e => .error e
  | .ok b => .ok (applyCampaignOverride toolName args b)

/-- Models `DataAPIToolHandler.buildRequestParams`: look the descriptor up in the
loader; an unknown tool yields empty params; otherwise classify the declared
parameters and, for a POST endpoint with a (truthy) default body, synthesize
the search body. -/
def buildRequestParams (st : LoaderState) (toolName : String) (args : Args) :
    Except String RequestParams :=
  match getEndpoint st toolName with
  | none => .ok { pathParams := [], queryParams := [], body := none }
  | some endpoint =>
    let pq := classifyParams endpoint args
    if endpoint.method == "POST" then
      match endpoint.defaultBody with
      | some db =>
        match buildSearchBody toolName args db with
        | .error e => .error e
        | .ok b => .ok { pathParams := pq.1, queryParams := pq.2, body := some b }
      | none => .ok { pathParams := pq.1, queryParams := pq.2, body := none }
    else .ok { pathParams := pq.1, queryParams := pq.2, body := none }

/-- The capability set computed at startup (`context.capabilities`). -/
structure Capabilities where
  canAccessLogs : Bool
  canAccessOCAPI : Bool

/-- The handler's resolved configuration slice used by `onInitialize`
(hostname/clientId/clientSecret are asserted non-null there; siteId is passed
through as-is). -/
structure HandlerConfig where
  hostname : Option String
  clientId : Option String
  clientSecret : Option String
  siteId : Option String

/-- Models `DataAPIToolHandler.onInitialize`: when OCAPI access is unavailable the
data-API client is left unset (`null`); otherwise a client is constructed
from the configuration (its site selector starting at `config.siteId`). -/
def onInitialize (caps : Capabilities) (config : HandlerConfig) :
    Option ClientState :=
  if caps.canAccessOCAPI then some { siteId := config.siteId } else none

/-- The per-tool required-argument lists registered through `validateArgs`
in `DataAPIToolHandler.getToolConfig`. -/
def requiredArgsFor (toolName : String) : List String :=
  match toolName with
  | "get_product" => ["site_id", "product_id"]
  | "get_catalog" => ["catalog_id"]
  | "get_categories" => ["catalog_id"]
  | "get_category" => ["catalog_id", "category_id"]
  | "get_site" => ["site_id"]
  | "search_campaigns" => ["site_id"]
  | "get_campaign" => ["site_id", "campaign_id"]
  | "search_promotions" => ["site_id"]
  | "search_coupons" => ["site_id"]
  | "get_inventory_list" => ["inventory_list_id"]
  | "get_product_inventory" => ["inventory_list_id", "product_id"]
  | "search_customers" => ["site_id"]
  | "get_customer" => ["site_id", "customer_id"]
  | "get_customer_groups" => ["site_id"]
  | "search_custom_objects" => ["object_type"]
  | "get_custom_object" => ["object_type", "key"]
  | "search_orders" => ["site_id"]
  | "get_order" => ["site_id", "order_no"]
  | "get_price_book" => ["price_book_id"]
  | "get_content_assets" => ["library_id"]
  | "get_content_asset" => ["library_id", "content_id"]
  | _ => []

/-- Modelled from the spec: the required-argument validation of
`BaseToolHandler.validateArgs` (base-handler.ts is not among the sources) —
"if the tool has a declared required-argument list, check presence of each;
on the first missing field, return a validation error envelope naming the
field". -/
def firstMissingArg (args : Args) : List String → Option String
  | [] => none
  | f :: fs => if (recGet args f).isNone then some f else firstMissingArg args fs

/-- The tool-call envelope rendered by the router
(`{content:[{type:"text", text}], isError}`): the error message or the
success payload, with the error flag. -/
structure ToolEnvelope where
  message : String
  payload : Option JVal
  isError : Bool

/-- Modelled from the spec: `BaseToolHandler.handle` (base-handler.ts is not
among the sources) — a name the router does not own is a programming error
and escapes as a thrown `Unsupported tool` (`Except.error`); an uninitialized
dispatcher (capability gate closed) fails closed with a "not initialized"
error envelope before any validation or network attempt; a missing required
argument yields a validation error envelope; any error thrown below (including
the handler's `executeEndpoint` re-throw of an unsuccessful dispatcher
response) is caught into an `isError` envelope; a successful dispatch returns
the response data.  The transport calls performed are returned alongside. -/
def handleToolCall (st : LoaderState) (transport : TransportCall → TransportResult)
    (caps : Capabilities) (config : HandlerConfig)
    (toolName : String) (args : Args) :
    Except String (ToolEnvelope × List TransportCall) :=
  if (getToolNames st).contains toolName then
    match onInitialize caps config with
    | none =>
      .ok ({ message := "Data API client not initialized. Check OCAPI credentials."
             payload := none, isError := true }, [])
    | some _client =>
      match firstMissingArg args (requiredArgsFor toolName) with
      | some field =>
        .ok ({ message := "Missing required field: " ++ field
               payload := none, isError := true }, [])
      | none =>
        match buildRequestParams st toolName args with
        | .error e => .ok ({ message := e, payload := none, isError := true }, [])
        | .ok params =>
          let (response, calls) := executeEndpoint st transport toolName params
          if response.success then
            .ok ({ message := "", payload := some response.data, isError := false },
              calls)
          else
            .ok ({ message := response.error.getD "Unknown error occurred"
                   payload := none, isError := true }, calls)
  else .error ("Unsupported tool: " ++ toolName)

/-- Modelled from the spec: the authenticated transport layer
(`OCAPIAuthClient` / `ocapi-url-builder`, not among the sources) consults the
dispatcher instance's current site-selector value when issuing a request,
while `DataAPIClient.executeEndpoint` itself never writes that field.  Each
executed call therefore reads the instance's `siteId` at call time and leaves
the instance state unchanged; the run returns the final state and the
site-selector value consulted by each call, in order. -/
def runClientCalls (st : LoaderState) (transport : TransportCall → TransportResult)
    (c : ClientState) : List (String × RequestParams) → ClientState × List (Option String)
  | [] => (c, [])
  | (n, p) :: rest =>
    let consulted := getSiteId c
    let _response := executeEndpoint st transport n p
    let (c', seen) := runClientCalls st transport c rest
    (c', consulted :: seen)

/-- The last descriptor in `es` whose `toolName` is `n` (the occurrence a
sequence of `Map.set` calls leaves in the index). -/
def lastWithName (es : List Endpoint) (n : String) : Option Endpoint :=
  match es with
  | [] => none
  | e :: rest =>
    match lastWithName rest n with
    | some r => some r
    | none => if e.toolName == n then some e else none

/-- Modelled from the spec: the promotion-search descriptor of the endpoint
catalog (`endpoints.json` is not among the sources).  Its shape follows the
spec (§4.2: a POST search endpoint with a `match_all_query` default body) and
the repository's own test fixture for `search_promotions`. -/
def searchPromotionsEndpoint : Endpoint :=
  { toolName := "search_promotions"
    path := "/promotions"
    description := "Search for promotions"
    method := "POST"
    parameters :=
      [{ name := "site_id", description := "Site ID", type := "string", required := true },
       { name := "campaign_id", description := "Campaign ID", type := "string", required := false }]
    defaultBody := some [("query", .vObj [("match_all_query", .vObj [])])]
    apiType := "ocapi"
    requiresSiteId := some true }

/-- A registry holding just the promotion-search descriptor. -/
def promoRegistry : LoaderState :=
  loadEndpoints (.endpoints [searchPromotionsEndpoint])

/-- A registry holding just the built-in `get_catalogs` descriptor. -/
def catalogsRegistry : LoaderState :=
  loadEndpoints (.endpoints [getCatalogsEndpoint])

/-- Fixture for the parameter-classification example of the spec (§8): path
`/a/{x}` with a path parameter `x` and a non-path parameter `y`. -/
def classifyDemoEndpoint : Endpoint :=
  { toolName := "classify_demo"
    path := "/a/{x}"
    description := "Classification demo"
    method := "GET"
    parameters :=
      [{ name := "x", description := "Path param", type := "string", required := true },
       { name := "y", description := "Query param", type := "string", required := false }]
    defaultBody := none
    apiType := "ocapi"
    requiresSiteId := some false }

/-- Duplicate-toolName fixtures: two descriptors sharing `toolName` `dup`. -/
def dupEndpointA : Endpoint :=
  { getCatalogsEndpoint with toolName := "dup", path := "/a" }

/-- Second descriptor with the duplicated `toolName` `dup`. -/
def dupEndpointB : Endpoint :=
  { getCatalogsEndpoint with toolName := "dup", path := "/b" }

/-- An argument bag holding both a free-text `query` and a present-but-empty
`campaign_id`. -/
def promoConflictArgs : Args :=
  [("site_id", .vStr "s"), ("query", .vStr "sale"), ("campaign_id", .vStr "")]

/-- The spec's promotion-search precedence example: both `query:"sale"` and
`campaign_id:"summer"`. -/
def promoSpecArgs : Args :=
  [("site_id", .vStr "s"), ("query", .vStr "sale"), ("campaign_id", .vStr "summer")]

/-- The request params built for `promoSpecArgs` against the promotion-search
descriptor. -/
def promoSpecResult : RequestParams :=
  { pathParams := []
    queryParams := [("site_id", .vStr "s"), ("campaign_id", .vStr "summer")]
    body := some [("query", termQueryVal (.vStr "summer"))] }

/-- A registry holding just the classification-demo descriptor. -/
def classifyRegistry : LoaderState :=
  loadEndpoints (.endpoints [classifyDemoEndpoint])

/-- The spec's classification example arguments: `{x:"v", y:"q"}`. -/
def classifyDemoArgs : Args :=
  [("x", .vStr "v"), ("y", .vStr "q")]

/-- The request params built for the classification example. -/
def classifyDemoResult : RequestParams :=
  { pathParams := [("x", "v")], queryParams := [("y", .vStr "q")], body := none }

theorem recGet_set_self {α : Type} (m : List (String × α)) (k : String) (v : α) :
    recGet (recSet m k v) k = some v := by
  induction m with
  | nil => simp [recSet, recGet]
  | cons p rest ih =>
    obtain ⟨k', v'⟩ := p
    by_cases hk : (k' == k) = true
    · simp [recSet, recGet, hk]
    · simp [recSet, recGet, hk, ih]

theorem recGet_set_ne {α : Type} (m : List (String × α)) (k n : String) (v : α)
    (h : n ≠ k) : recGet (recSet m k v) n = recGet m n := by
  have hkn : (k == n) = false := by
    simp only [beq_eq_false_iff_ne]
    exact fun he => h he.symm
  induction m with
  | nil => simp [recSet, recGet, hkn]
  | cons p rest ih =>
    obtain ⟨k', v'⟩ := p
    by_cases hk : (k' == k) = true
    · have : k' = k := by simpa using hk
      simp [recSet, recGet, hk, hkn, this]
    · simp [recSet, recGet, hk, ih]

theorem recHas_set {α : Type} (m : List (String × α)) (k n : String) (v : α) :
    recHas (recSet m k v) n = ((n == k) || recHas m n) := by
  by_cases h : n = k
  · subst h
    simp [recHas, recGet_set_self]
  · have : (n == k) = false := by simpa [beq_eq_false_iff_ne] using h
    simp [recHas, recGet_set_ne m k n v h, this]

theorem recGet_append_of_none {α : Type} (m l : List (String × α)) (k : String)
    (h : recGet m k = none) : recGet (m ++ l) k = recGet l k := by
  induction m with
  | nil => simp only [List.nil_append]
  | cons p rest ih =>
    obtain ⟨k', v'⟩ := p
    by_cases hk : (k' == k) = true
    · simp [recGet, hk] at h
    · simp only [recGet, hk, if_false, Bool.false_eq_true] at h
      simp only [List.cons_append, recGet, hk, Bool.false_eq_true, if_false]
      exact ih h

theorem runClientCalls_state (st : LoaderState)
    (transport : TransportCall → TransportResult) (c : ClientState)
    (calls : List (String × RequestParams)) :
    (runClientCalls st transport c calls).1 = c := by
  induction calls with
  | nil => rfl
  | cons x rest ih =>
    obtain ⟨n, p⟩ := x
    simp [runClientCalls, ih]

theorem runClientCalls_consulted (st : LoaderState)
    (transport : TransportCall → TransportResult) (c : ClientState)
    (calls : List (String × RequestParams)) :
    (runClientCalls st transport c calls).2 =
      calls.map (fun _ => getSiteId c) := by
  induction calls with
  | nil => rfl
  | cons x rest ih =>
    obtain ⟨n, p⟩ := x
    simp [runClientCalls, ih]

/-- Claim C2: for every toolName absent from the endpoint registry,
`executeEndpoint` returns `{success:false, status:400, error:"Unknown
endpoint: <name>"}` and performs zero transport calls. -/
theorem c2_unknown_endpoint_short_circuit
    (st : LoaderState) (transport : TransportCall → TransportResult)
    (toolName : String) (params : RequestParams)
    (h : getEndpoint st toolName = none) :
    executeEndpoint st transport toolName params =
      ({ data := .vNull, status := 400, success := false
         error := some ("Unknown endpoint: " ++ toolName) }, []) := by
  simp [executeEndpoint, h]

theorem c2_unknown_endpoint_short_circuit_witness :
    getEndpoint (loadEndpoints .noArray) "mystery_tool" = none ∧
    executeEndpoint (loadEndpoints .noArray) (fun _ => .err "offline")
        "mystery_tool" { pathParams := [], queryParams := [], body := none } =
      ({ data := .vNull, status := 400, success := false
         error := some "Unknown endpoint: mystery_tool" }, []) :=
  ⟨rfl, c2_unknown_endpoint_short_circuit _ _ _ _ rfl⟩

/-- Claim C5 (code bug): when the catalog cannot be read or parsed, the
loader's catch branch installs `getDefaultEndpoints` into the `endpoints`
array (so startup survives and `getEndpoints` reports them) but never indexes
them into `endpointMap`, so the fallback descriptor is unreachable through
`getEndpoint`/`hasEndpoint` — and hence through dispatch, contradicting the
documented fallback-availability policy. -/
theorem c5_fallback_not_indexed :
    getEndpoints (loadEndpoints .failure) = getDefaultEndpoints ∧
    getEndpoint (loadEndpoints .failure) "get_catalogs" = none ∧
    hasEndpoint (loadEndpoints .failure) "get_catalogs" = false ∧
    (executeEndpoint (loadEndpoints .failure) (fun _ => .ok 200 (.vObj []))
        "get_catalogs" { pathParams := [], queryParams := [], body := none }).1.success
      = false :=
  ⟨rfl, rfl, rfl, rfl⟩

/-- Claim C10: the dispatcher's site selector is one mutable instance-level
value: after `setSiteId s`, `getSiteId` returns `s`, and since
`executeEndpoint` never writes the field, every subsequent call issued
through the instance consults that same stored value (it is instance-global,
not call-scoped). -/
theorem c10_site_selector_global (st : LoaderState)
    (transport : TransportCall → TransportResult) (c : ClientState) (s : String)
    (calls : List (String × RequestParams)) :
    getSiteId (setSiteId c s) = some s ∧
    (runClientCalls st transport (setSiteId c s) calls).2 =
      calls.map (fun _ => some s) ∧
    getSiteId (runClientCalls st transport (setSiteId c s) calls).1 = some s := by
  refine ⟨rfl, ?_, ?_⟩
  · rw [runClientCalls_consulted]
    rfl
  · rw [runClientCalls_state]
    rfl

/-- Claim C4: `executeEndpoint` never lets an exception escape: for a known
endpoint, a successful transport call is normalized to `{success:true,
status:200, data:<payload>}` regardless of the transport's real status, any
transport-level throw is caught into `{success:false, status:500,
error:<message>}`, and an unrecognized method string yields `{success:false,
status:500, error:"Unsupported HTTP method: <method>"}`. -/
theorem c4_dispatch_normalization
    (st : LoaderState) (transport : TransportCall → TransportResult)
    (toolName : String) (params : RequestParams) (e : Endpoint)
    (h : getEndpoint st toolName = some e) :
    (∀ realStatus payload,
        (∀ call, transport call = .ok realStatus payload) →
        e.method ∈ ["GET", "POST", "PUT", "PATCH", "DELETE"] →
        (executeEndpoint st transport toolName params).1 =
          { data := payload, status := 200, success := true, error := none }) ∧
    (∀ msg, (∀ call, transport call = .err msg) →
        e.method ∈ ["GET", "POST", "PUT", "PATCH", "DELETE"] →
        (executeEndpoint st transport toolName params).1 =
          { data := .vNull, status := 500, success := false, error := some msg }) ∧
    (e.method ∉ ["GET", "POST", "PUT", "PATCH", "DELETE"] →
        (executeEndpoint st transport toolName params).1 =
          { data := .vNull, status := 500, success := false
            error := some ("Unsupported HTTP method: " ++ e.method) }) := by
  refine ⟨?_, ?_, ?_⟩
  · intro realStatus payload htr hm
    simp only [List.mem_cons, List.not_mem_nil, or_false] at hm
    rcases hm with hm | hm | hm | hm | hm <;>
      simp [executeEndpoint, h, hm, htr]
  · intro msg htr hm
    simp only [List.mem_cons, List.not_mem_nil, or_false] at hm
    rcases hm with hm | hm | hm | hm | hm <;>
      simp [executeEndpoint, h, hm, htr]
  · intro hm
    simp only [List.mem_cons, List.not_mem_nil, or_false, not_or] at hm
    obtain ⟨h1, h2, h3, h4, h5⟩ := hm
    simp [executeEndpoint, h, beq_eq_false_iff_ne.mpr h1,
      beq_eq_false_iff_ne.mpr h2, beq_eq_false_iff_ne.mpr h3,
      beq_eq_false_iff_ne.mpr h4, beq_eq_false_iff_ne.mpr h5]

theorem c4_dispatch_normalization_witness :
    getEndpoint catalogsRegistry "get_catalogs" = some getCatalogsEndpoint ∧
    getCatalogsEndpoint.method ∈ ["GET", "POST", "PUT", "PATCH", "DELETE"] ∧
    (executeEndpoint catalogsRegistry (fun _ => .ok 204 (.vStr "payload"))
        "get_catalogs" { pathParams := [], queryParams := [], body := none }).1 =
      { data := .vStr "payload", status := 200, success := true, error := none } :=
  ⟨rfl, by decide,
    (c4_dispatch_normalization catalogsRegistry (fun _ => .ok 204 (.vStr "payload"))
        "get_catalogs" { pathParams := [], queryParams := [], body := none }
        getCatalogsEndpoint rfl).1 204 (.vStr "payload") (fun _ => rfl) (by decide)⟩

/-- Claim C9: when the data-API capability is absent, the handler's client is
never initialized, and every handled call on an owned tool name yields the
`isError` envelope whose text contains "not initialized", with zero transport
calls and no exception escaping to the host. -/
theorem c9_capability_gate_closed
    (st : LoaderState) (transport : TransportCall → TransportResult)
    (caps : Capabilities) (config : HandlerConfig)
    (toolName : String) (args : Args)
    (hcap : caps.canAccessOCAPI = false)
    (howned : (getToolNames st).contains toolName = true) :
    handleToolCall st transport caps config toolName args =
      .ok ({ message := "Data API client not initialized. Check OCAPI credentials."
             payload := none, isError := true }, []) ∧
    jsIncludes "Data API client not initialized. Check OCAPI credentials."
      "not initialized" = true := by
  constructor
  · have hmem : toolName ∈ getToolNames st := by simpa using howned
    simp [handleToolCall, howned, hmem, onInitialize, hcap]
  · decide

theorem c9_capability_gate_closed_witness :
    (Capabilities.mk false false).canAccessOCAPI = false ∧
    (getToolNames catalogsRegistry).contains "get_catalogs" = true ∧
    (handleToolCall catalogsRegistry (fun _ => .err "offline")
        (Capabilities.mk false false) (HandlerConfig.mk none none none none)
        "get_catalogs" [] =
      .ok ({ message := "Data API client not initialized. Check OCAPI credentials."
             payload := none, isError := true }, []) ∧
     jsIncludes "Data API client not initialized. Check OCAPI credentials."
       "not initialized" = true) :=
  ⟨rfl, rfl,
    c9_capability_gate_closed catalogsRegistry (fun _ => .err "offline")
      (Capabilities.mk false false) (HandlerConfig.mk none none none none)
      "get_catalogs" [] rfl rfl⟩

theorem recGet_loadFold (es : List Endpoint) (m : List (String × Endpoint))
    (n : String) :
    recGet (es.foldl (fun m e => recSet m e.toolName e) m) n =
      match lastWithName es n with
      | some r => some r
      | none => recGet m n := by
  induction es generalizing m with
  | nil => simp [lastWithName]
  | cons e rest ih =>
    simp only [List.foldl_cons]
    rw [ih]
    cases hrest : lastWithName rest n with
    | some r => simp [lastWithName, hrest]
    | none =>
      simp only [lastWithName, hrest]
      by_cases he : e.toolName = n
      · subst he
        simp [recGet_set_self]
      · have hb : (e.toolName == n) = false := beq_eq_false_iff_ne.mpr he
        rw [recGet_set_ne m e.toolName n e (fun hh => he hh.symm)]
        simp [hb]

theorem lastWithName_of_not_mem (es : List Endpoint) (n : String)
    (h : ∀ e ∈ es, e.toolName ≠ n) : lastWithName es n = none := by
  induction es with
  | nil => rfl
  | cons e rest ih =>
    have hrest : lastWithName rest n = none :=
      ih (fun x hx => h x (List.mem_cons_of_mem e hx))
    have he : (e.toolName == n) = false :=
      beq_eq_false_iff_ne.mpr (h e (List.mem_cons_self e rest))
    simp [lastWithName, hrest, he]

theorem lastWithName_nodup_mem (es : List Endpoint) (d : Endpoint)
    (hnd : (es.map Endpoint.toolName).Nodup) (hd : d ∈ es) :
    lastWithName es d.toolName = some d := by
  induction es with
  | nil => cases hd
  | cons e rest ih =>
    rcases List.mem_cons.mp hd with rfl | hd'
    · have hnone : lastWithName rest d.toolName = none := by
        refine lastWithName_of_not_mem rest d.toolName (fun x hx hEq => ?_)
        have : d.toolName ∈ rest.map Endpoint.toolName := by
          rw [← hEq]
          exact List.mem_map_of_mem Endpoint.toolName hx
        exact (List.nodup_cons.mp (by simpa using hnd)).1 this
      simp [lastWithName, hnone]
    · have hnd' : (rest.map Endpoint.toolName).Nodup :=
        (List.nodup_cons.mp (by simpa using hnd)).2
      simp [lastWithName, ih hnd' hd']

/-- Claim C6 (amended): after loading a catalog, `getEndpoint` returns the
LAST catalog occurrence of each tool name (last-loaded wins in the
`Map.set`-built index, not first-wins and not a load-time error); in
particular, for a catalog whose toolNames are pairwise distinct, `getEndpoint`
round-trips every loaded descriptor. -/
theorem c6_registry_lookup (es : List Endpoint) (n : String) (d : Endpoint)
    (hnd : (es.map Endpoint.toolName).Nodup) (hd : d ∈ es) :
    getEndpoint (loadEndpoints (.endpoints es)) n = lastWithName es n ∧
    getEndpoint (loadEndpoints (.endpoints es)) d.toolName = some d := by
  have hchar : ∀ k, getEndpoint (loadEndpoints (.endpoints es)) k = lastWithName es k := by
    intro k
    show recGet (es.foldl (fun m e => recSet m e.toolName e) []) k = _
    rw [recGet_loadFold]
    cases lastWithName es k <;> simp [recGet]
  exact ⟨hchar n, by rw [hchar d.toolName]; exact lastWithName_nodup_mem es d hnd hd⟩

theorem c6_registry_lookup_witness :
    ([getCatalogsEndpoint].map Endpoint.toolName).Nodup ∧
    getCatalogsEndpoint ∈ [getCatalogsEndpoint] ∧
    (getEndpoint (loadEndpoints (.endpoints [getCatalogsEndpoint])) "get_catalogs" =
        lastWithName [getCatalogsEndpoint] "get_catalogs" ∧
     getEndpoint (loadEndpoints (.endpoints [getCatalogsEndpoint]))
        getCatalogsEndpoint.toolName = some getCatalogsEndpoint) :=
  ⟨by simp, List.mem_singleton.mpr rfl,
    c6_registry_lookup [getCatalogsEndpoint] "get_catalogs" getCatalogsEndpoint
      (by simp) (List.mem_singleton.mpr rfl)⟩

/-- Claim C6 counterexample: a catalog with a duplicated `toolName` loads
without error, the registry's descriptor list keeps BOTH occurrences (tool
names are not pairwise distinct), and `getEndpoint` returns the LAST
occurrence — it does not round-trip the first-loaded descriptor and does not
keep the first occurrence. -/
theorem c6_duplicate_counterexample :
    getToolNames (loadEndpoints (.endpoints [dupEndpointA, dupEndpointB])) =
      ["dup", "dup"] ∧
    ¬ (getToolNames (loadEndpoints (.endpoints [dupEndpointA, dupEndpointB]))).Nodup ∧
    dupEndpointA.toolName = "dup" ∧
    dupEndpointA.path = "/a" ∧
    ((getEndpoint (loadEndpoints (.endpoints [dupEndpointA, dupEndpointB])) "dup").map
        Endpoint.path = some "/b") ∧
    ((getEndpoint (loadEndpoints (.endpoints [dupEndpointA, dupEndpointB])) "dup").map
        Endpoint.path ≠ some dupEndpointA.path) :=
  ⟨rfl, by decide, rfl, rfl, rfl, by decide⟩

/-- Claim C1 (amended): for the promotion-search tool, a TRUTHY (in
particular non-empty) campaign-identifier argument makes the builder replace
`body.query` entirely with the exact-match term-query on `campaign_id`; the
override is applied after every other body step and therefore supersedes any
text-query built from a free-text `query` argument — the final body's query is
exactly the term-query. -/
theorem c1_campaign_override
    (st : LoaderState) (args : Args) (e : Endpoint)
    (db : List (String × JVal)) (rp : RequestParams) (cid : JVal)
    (he : getEndpoint st "search_promotions" = some e)
    (hm : e.method = "POST")
    (hdb : e.defaultBody = some db)
    (hcid : recGet args "campaign_id" = some cid)
    (htruthy : cid.truthy = true)
    (hbuild : buildRequestParams st "search_promotions" args = .ok rp) :
    ∃ b, rp.body = some b ∧ recGet b "query" = some (termQueryVal cid) := by
  have hmb : (e.method == "POST") = true := by simp [hm]
  unfold buildRequestParams at hbuild
  rw [he] at hbuild
  simp only [hmb, if_true, hdb] at hbuild
  cases hb : buildSearchBody "search_promotions" args db with
  | error msg => rw [hb] at hbuild; cases hbuild
  | ok b1 =>
    rw [hb] at hbuild
    have hrp : rp.body = some b1 := by
      cases hbuild
      rfl
    unfold buildSearchBody at hb
    cases hex : applyExpand args (applyStart args (applyCount args
        (applyTextQuery "search_promotions" args db))) with
    | error msg => rw [hex] at hb; cases hb
    | ok b2 =>
      rw [hex] at hb
      have hb1 : b1 = applyCampaignOverride "search_promotions" args b2 := by
        cases hb
        rfl
      refine ⟨b1, hrp, ?_⟩
      rw [hb1]
      unfold applyCampaignOverride
      simp only [beq_self_eq_true, if_true, hcid, htruthy]
      exact recGet_set_self b2 "query" (termQueryVal cid)

theorem c1_campaign_override_witness :
    recGet promoSpecArgs "query" = some (.vStr "sale") ∧
    recGet promoSpecArgs "campaign_id" = some (.vStr "summer") ∧
    (JVal.vStr "summer").truthy = true ∧
    buildRequestParams promoRegistry "search_promotions" promoSpecArgs =
      .ok promoSpecResult ∧
    (∃ b, promoSpecResult.body = some b ∧
      recGet b "query" = some (termQueryVal (.vStr "summer"))) :=
  ⟨rfl, rfl, rfl, rfl,
    c1_campaign_override promoRegistry promoSpecArgs searchPromotionsEndpoint
      [("query", .vObj [("match_all_query", .vObj [])])] promoSpecResult
      (.vStr "summer") rfl rfl rfl rfl rfl rfl⟩

/-- Claim C1 counterexample: an argument bag containing BOTH `query:"sale"`
and a present-but-empty `campaign_id:""` does get a final body, but its query
is the text-query built from the free-text argument, not the term-query — the
campaign override only fires for a truthy campaign identifier, so "present"
is not enough. -/
theorem c1_present_campaign_counterexample :
    recGet promoConflictArgs "query" = some (.vStr "sale") ∧
    recGet promoConflictArgs "campaign_id" = some (.vStr "") ∧
    buildRequestParams promoRegistry "search_promotions" promoConflictArgs =
      .ok { pathParams := []
            queryParams := [("site_id", .vStr "s")]
            body := some [("query", textQueryVal "search_promotions" (.vStr "sale"))] } ∧
    textQueryVal "search_promotions" (.vStr "sale") ≠ termQueryVal (.vStr "") := by
  refine ⟨rfl, rfl, rfl, ?_⟩
  intro h
  simp [textQueryVal, termQueryVal] at h

theorem classifyStep_ne (e : Endpoint) (args : Args)
    (pq : List (String × String) × List (String × JVal)) (p : EndpointParam)
    (n : String) (hne : p.name ≠ n) :
    recGet (classifyStep e args pq p).1 n = recGet pq.1 n ∧
    recGet (classifyStep e args pq p).2 n = recGet pq.2 n := by
  cases hv : recGet args p.name with
  | none => simp [classifyStep, hv, skipArg]
  | some v =>
    by_cases hs : skipArg (some v) = true
    · simp [classifyStep, hv, hs]
    · have hs' : skipArg (some v) = false := by simpa using hs
      by_cases hp : pathHasPlaceholder e p.name = true
      · simp [classifyStep, hv, hs', hp,
          recGet_set_ne pq.1 p.name n v.jsToString (Ne.symm hne)]
      · have hp' : pathHasPlaceholder e p.name = false := by simpa using hp
        by_cases hq : (p.name != "query") = true
        · simp [classifyStep, hv, hs', hp', hq,
            recGet_set_ne pq.2 p.name n v (Ne.symm hne)]
        · simp [classifyStep, hv, hs', hp', hq]

theorem classifyFold_skip (e : Endpoint) (args : Args) (n : String)
    (hskip : skipArg (recGet args n) = true) :
    ∀ (params : List EndpointParam)
      (pq : List (String × String) × List (String × JVal)),
      recGet (params.foldl (classifyStep e args) pq).1 n = recGet pq.1 n ∧
      recGet (params.foldl (classifyStep e args) pq).2 n = recGet pq.2 n := by
  intro params
  induction params with
  | nil => intro pq; exact ⟨rfl, rfl⟩
  | cons p rest ih =>
    intro pq
    have hstep : recGet (classifyStep e args pq p).1 n = recGet pq.1 n ∧
        recGet (classifyStep e args pq p).2 n = recGet pq.2 n := by
      by_cases hne : p.name = n
      · subst hne
        simp [classifyStep, hskip]
      · exact classifyStep_ne e args pq p n hne
    simp only [List.foldl_cons]
    exact ⟨((ih _).1).trans hstep.1, ((ih _).2).trans hstep.2⟩

theorem classifyFold_path_pres (e : Endpoint) (args : Args) (n : String)
    (v : JVal) (hv : recGet args n = some v) (hs : skipArg (some v) = false)
    (hp : pathHasPlaceholder e n = true) :
    ∀ (params : List EndpointParam)
      (pq : List (String × String) × List (String × JVal)),
      recGet pq.1 n = some v.jsToString → recGet pq.2 n = none →
      recGet (params.foldl (classifyStep e args) pq).1 n = some v.jsToString ∧
      recGet (params.foldl (classifyStep e args) pq).2 n = none := by
  intro params
  induction params with
  | nil => intro pq h1 h2; exact ⟨h1, h2⟩
  | cons p rest ih =>
    intro pq h1 h2
    simp only [List.foldl_cons]
    by_cases hne : p.name = n
    · subst hne
      have hstep1 : recGet (classifyStep e args pq p).1 p.name = some v.jsToString := by
        simp [classifyStep, hv, hs, hp, recGet_set_self]
      have hstep2 : recGet (classifyStep e args pq p).2 p.name = none := by
        simp [classifyStep, hv, hs, hp, h2]
      exact ih _ hstep1 hstep2
    · have hstep := classifyStep_ne e args pq p n hne
      exact ih _ (hstep.1.trans h1) (hstep.2.trans h2)

theorem classifyFold_path_est (e : Endpoint) (args : Args) (n : String)
    (v : JVal) (hv : recGet args n = some v) (hs : skipArg (some v) = false)
    (hp : pathHasPlaceholder e n = true) :
    ∀ (params : List EndpointParam)
      (pq : List (String × String) × List (String × JVal)),
      (∃ p ∈ params, p.name = n) → recGet pq.2 n = none →
      recGet (params.foldl (classifyStep e args) pq).1 n = some v.jsToString ∧
      recGet (params.foldl (classifyStep e args) pq).2 n = none := by
  intro params
  induction params with
  | nil =>
    intro pq hmem _
    obtain ⟨p, hmem, _⟩ := hmem
    cases hmem
  | cons p rest ih =>
    intro pq hmem h2
    simp only [List.foldl_cons]
    by_cases hne : p.name = n
    · subst hne
      have hstep1 : recGet (classifyStep e args pq p).1 p.name = some v.jsToString := by
        simp [classifyStep, hv, hs, hp, recGet_set_self]
      have hstep2 : recGet (classifyStep e args pq p).2 p.name = none := by
        simp [classifyStep, hv, hs, hp, h2]
      exact classifyFold_path_pres e args p.name v hv hs hp rest _ hstep1 hstep2
    · obtain ⟨q, hq, hqn⟩ := hmem
      rcases List.mem_cons.mp hq with rfl | hq'
      · exact absurd hqn hne
      · have hstep := classifyStep_ne e args pq p n hne
        exact ih _ ⟨q, hq', hqn⟩ (hstep.2.trans h2)

theorem classifyFold_query_pres (e : Endpoint) (args : Args) (n : String)
    (v : JVal) (hv : recGet args n = some v) (hs : skipArg (some v) = false)
    (hp : pathHasPlaceholder e n = false) (hq : n ≠ "query") :
    ∀ (params : List EndpointParam)
      (pq : List (String × String) × List (String × JVal)),
      recGet pq.2 n = some v → recGet pq.1 n = none →
      recGet (params.foldl (classifyStep e args) pq).2 n = some v ∧
      recGet (params.foldl (classifyStep e args) pq).1 n = none := by
  intro params
  induction params with
  | nil => intro pq h1 h2; exact ⟨h1, h2⟩
  | cons p rest ih =>
    intro pq h1 h2
    simp only [List.foldl_cons]
    by_cases hne : p.name = n
    · subst hne
      have hqb : (p.name != "query") = true := by
        simpa using hq
      have hstep1 : recGet (classifyStep e args pq p).2 p.name = some v := by
        simp [classifyStep, hv, hs, hp, hqb, recGet_set_self]
      have hstep2 : recGet (classifyStep e args pq p).1 p.name = none := by
        simp [classifyStep, hv, hs, hp, hqb, h2]
      exact ih _ hstep1 hstep2
    · have hstep := classifyStep_ne e args pq p n hne
      exact ih _ (hstep.2.trans h1) (hstep.1.trans h2)

theorem classifyFold_query_est (e : Endpoint) (args : Args) (n : String)
    (v : JVal) (hv : recGet args n = some v) (hs : skipArg (some v) = false)
    (hp : pathHasPlaceholder e n = false) (hq : n ≠ "query") :
    ∀ (params : List EndpointParam)
      (pq : List (String × String) × List (String × JVal)),
      (∃ p ∈ params, p.name = n) → recGet pq.1 n = none →
      recGet (params.foldl (classifyStep e args) pq).2 n = some v ∧
      recGet (params.foldl (classifyStep e args) pq).1 n = none := by
  intro params
  induction params with
  | nil =>
    intro pq hmem _
    obtain ⟨p, hmem, _⟩ := hmem
    cases hmem
  | cons p rest ih =>
    intro pq hmem h2
    simp only [List.foldl_cons]
    by_cases hne : p.name = n
    · subst hne
      have hqb : (p.name != "query") = true := by
        simpa using hq
      have hstep1 : recGet (classifyStep e args pq p).2 p.name = some v := by
        simp [classifyStep, hv, hs, hp, hqb, recGet_set_self]
      have hstep2 : recGet (classifyStep e args pq p).1 p.name = none := by
        simp [classifyStep, hv, hs, hp, hqb, h2]
      exact classifyFold_query_pres e args p.name v hv hs hp hq rest _ hstep1 hstep2
    · obtain ⟨q, hqm, hqn⟩ := hmem
      rcases List.mem_cons.mp hqm with rfl | hq'
      · exact absurd hqn hne
      · have hstep := classifyStep_ne e args pq p n hne
        exact ih _ ⟨q, hq', hqn⟩ (hstep.1.trans h2)

theorem classifyStep_inv (e : Endpoint) (args : Args)
    (pq : List (String × String) × List (String × JVal)) (p : EndpointParam)
    (h1 : ∀ k, recHas pq.1 k = true → pathHasPlaceholder e k = true)
    (h2 : ∀ k, recHas pq.2 k = true → pathHasPlaceholder e k = false) :
    (∀ k, recHas (classifyStep e args pq p).1 k = true →
        pathHasPlaceholder e k = true) ∧
    (∀ k, recHas (classifyStep e args pq p).2 k = true →
        pathHasPlaceholder e k = false) := by
  cases hv : recGet args p.name with
  | none => simpa [classifyStep, hv, skipArg] using ⟨h1, h2⟩
  | some v =>
    by_cases hs : skipArg (some v) = true
    · simpa [classifyStep, hv, hs] using ⟨h1, h2⟩
    · have hs' : skipArg (some v) = false := by simpa using hs
      by_cases hp : pathHasPlaceholder e p.name = true
      · refine ⟨?_, ?_⟩
        · intro k hk
          simp only [classifyStep, hv, hs', Bool.false_eq_true, if_false, hp,
            if_true] at hk
          rw [recHas_set] at hk
          rcases Bool.or_eq_true_iff.mp hk with hk | hk
          · have : k = p.name := by simpa using hk
            rw [this]
            exact hp
          · exact h1 k hk
        · intro k hk
          simp only [classifyStep, hv, hs', Bool.false_eq_true, if_false, hp,
            if_true] at hk
          exact h2 k hk
      · have hp' : pathHasPlaceholder e p.name = false := by simpa using hp
        by_cases hq : (p.name != "query") = true
        · refine ⟨?_, ?_⟩
          · intro k hk
            simp only [classifyStep, hv, hs', Bool.false_eq_true, if_false, hp',
              hq, if_true] at hk
            exact h1 k hk
          · intro k hk
            simp only [classifyStep, hv, hs', Bool.false_eq_true, if_false, hp',
              hq, if_true] at hk
            rw [recHas_set] at hk
            rcases Bool.or_eq_true_iff.mp hk with hk | hk
            · have : k = p.name := by simpa using hk
              rw [this]
              exact hp'
            · exact h2 k hk
        · have hq' : (p.name != "query") = false := by simpa using hq
          simpa [classifyStep, hv, hs', hp', hq'] using ⟨h1, h2⟩

theorem classifyFold_inv (e : Endpoint) (args : Args) :
    ∀ (params : List EndpointParam)
      (pq : List (String × String) × List (String × JVal)),
      (∀ k, recHas pq.1 k = true → pathHasPlaceholder e k = true) →
      (∀ k, recHas pq.2 k = true → pathHasPlaceholder e k = false) →
      (∀ k, recHas (params.foldl (classifyStep e args) pq).1 k = true →
          pathHasPlaceholder e k = true) ∧
      (∀ k, recHas (params.foldl (classifyStep e args) pq).2 k = true →
          pathHasPlaceholder e k = false) := by
  intro params
  induction params with
  | nil => intro pq h1 h2; exact ⟨h1, h2⟩
  | cons p rest ih =>
    intro pq h1 h2
    simp only [List.foldl_cons]
    have hstep := classifyStep_inv e args pq p h1 h2
    exact ih _ hstep.1 hstep.2

theorem buildRequestParams_classify (st : LoaderState) (toolName : String)
    (args : Args) (e : Endpoint) (rp : RequestParams)
    (he : getEndpoint st toolName = some e)
    (hbuild : buildRequestParams st toolName args = .ok rp) :
    rp.pathParams = (classifyParams e args).1 ∧
    rp.queryParams = (classifyParams e args).2 := by
  unfold buildRequestParams at hbuild
  rw [he] at hbuild
  by_cases hm : (e.method == "POST") = true
  · simp only [hm, if_true] at hbuild
    cases hdb : e.defaultBody with
    | none =>
      simp only [hdb] at hbuild
      cases hbuild
      exact ⟨rfl, rfl⟩
    | some db =>
      simp only [hdb] at hbuild
      cases hb : buildSearchBody toolName args db with
      | error msg => rw [hb] at hbuild; cases hbuild
      | ok b =>
        rw [hb] at hbuild
        cases hbuild
        exact ⟨rfl, rfl⟩
  · have hm' : (e.method == "POST") = false := by simpa using hm
    simp only [hm', Bool.false_eq_true, if_false] at hbuild
    cases hbuild
    exact ⟨rfl, rfl⟩

/-- Claim C3: for every descriptor and argument bag, the built request params
classify each declared parameter as follows: an absent/null/empty-string
argument is omitted from both maps; a parameter whose name appears as
`{name}` in the descriptor's path goes (string-coerced) only into
`pathParams`; every other parameter except the reserved name `query` goes
(raw) into `queryParams`; and no key appears in both maps. -/
theorem c3_parameter_classification (st : LoaderState) (toolName : String)
    (args : Args) (e : Endpoint) (rp : RequestParams)
    (he : getEndpoint st toolName = some e)
    (hbuild : buildRequestParams st toolName args = .ok rp) :
    (∀ p ∈ e.parameters,
      (skipArg (recGet args p.name) = true →
        recGet rp.pathParams p.name = none ∧
        recGet rp.queryParams p.name = none) ∧
      (∀ v, recGet args p.name = some v → skipArg (some v) = false →
        pathHasPlaceholder e p.name = true →
        recGet rp.pathParams p.name = some v.jsToString ∧
        recGet rp.queryParams p.name = none) ∧
      (∀ v, recGet args p.name = some v → skipArg (some v) = false →
        pathHasPlaceholder e p.name = false → p.name ≠ "query" →
        recGet rp.queryParams p.name = some v ∧
        recGet rp.pathParams p.name = none)) ∧
    (∀ k, recHas rp.pathParams k = true → recHas rp.queryParams k = false) := by
  obtain ⟨hpp, hqp⟩ := buildRequestParams_classify st toolName args e rp he hbuild
  rw [hpp, hqp]
  constructor
  · intro p hp
    refine ⟨?_, ?_, ?_⟩
    · intro hskip
      exact classifyFold_skip e args p.name hskip e.parameters ([], [])
    · intro v hv hs hph
      exact classifyFold_path_est e args p.name v hv hs hph e.parameters
        ([], []) ⟨p, hp, rfl⟩ rfl
    · intro v hv hs hph hq
      exact classifyFold_query_est e args p.name v hv hs hph hq e.parameters
        ([], []) ⟨p, hp, rfl⟩ rfl
  · have hinv := classifyFold_inv e args e.parameters ([], [])
      (fun k hk => by simp [recHas, recGet] at hk)
      (fun k hk => by simp [recHas, recGet] at hk)
    intro k hk1
    by_contra hq2
    rw [Bool.not_eq_false] at hq2
    have ha := hinv.1 k hk1
    have hb := hinv.2 k hq2
    rw [ha] at hb
    cases hb

theorem c3_parameter_classification_witness :
    getEndpoint classifyRegistry "classify_demo" = some classifyDemoEndpoint ∧
    buildRequestParams classifyRegistry "classify_demo" classifyDemoArgs =
      .ok classifyDemoResult ∧
    recGet classifyDemoResult.pathParams "x" = some "v" ∧
    recGet classifyDemoResult.queryParams "y" = some (.vStr "q") ∧
    recGet classifyDemoResult.queryParams "x" = none ∧
    ((∀ p ∈ classifyDemoEndpoint.parameters,
      (skipArg (recGet classifyDemoArgs p.name) = true →
        recGet classifyDemoResult.pathParams p.name = none ∧
        recGet classifyDemoResult.queryParams p.name = none) ∧
      (∀ v, recGet classifyDemoArgs p.name = some v → skipArg (some v) = false →
        pathHasPlaceholder classifyDemoEndpoint p.name = true →
        recGet classifyDemoResult.pathParams p.name = some v.jsToString ∧
        recGet classifyDemoResult.queryParams p.name = none) ∧
      (∀ v, recGet classifyDemoArgs p.name = some v → skipArg (some v) = false →
        pathHasPlaceholder classifyDemoEndpoint p.name = false → p.name ≠ "query" →
        recGet classifyDemoResult.queryParams p.name = some v ∧
        recGet classifyDemoResult.pathParams p.name = none)) ∧
     (∀ k, recHas classifyDemoResult.pathParams k = true →
        recHas classifyDemoResult.queryParams k = false)) :=
  ⟨rfl, rfl, rfl, rfl, rfl,
    c3_parameter_classification classifyRegistry "classify_demo"
      classifyDemoArgs classifyDemoEndpoint classifyDemoResult rfl rfl⟩

theorem recSet_of_not_has {α : Type} (m : List (String × α)) (k : String)
    (v : α) (h : recHas m k = false) : recSet m k v = m ++ [(k, v)] := by
  induction m with
  | nil => rfl
  | cons p rest ih =>
    obtain ⟨k', v'⟩ := p
    by_cases hk : (k' == k) = true
    · simp [recHas, recGet, hk] at h
    · have hrest : recHas rest k = false := by
        simpa [recHas, recGet, hk] using h
      simp [recSet, hk, ih hrest]

theorem recHas_append_singleton {α : Type} (m : List (String × α))
    (k n : String) (v : α) :
    recHas (m ++ [(k, v)]) n = (recHas m n || (k == n)) := by
  induction m with
  | nil => by_cases h : k = n <;> simp [recHas, recGet, h]
  | cons p rest ih =>
    obtain ⟨k', v'⟩ := p
    by_cases hk : (k' == n) = true
    · simp [recHas, recGet, hk]
    · simpa [recHas, recGet, hk] using ih

theorem buildUrl_query_fold (qp : List (String × JVal)) :
    ∀ m : List (String × String),
      (qp.map Prod.fst).Nodup →
      (∀ kv ∈ qp, recHas m kv.1 = false) →
      qp.foldl (fun m kv =>
          if queryValKept kv.2 then recSet m kv.1 kv.2.jsToString else m) m =
        m ++ (qp.filter (fun kv => queryValKept kv.2)).map
          (fun kv => (kv.1, kv.2.jsToString)) := by
  induction qp with
  | nil => intro m _ _; simp
  | cons kv rest ih =>
    intro m hnd habs
    have hnd' : (rest.map Prod.fst).Nodup := (List.nodup_cons.mp (by simpa using hnd)).2
    have hhead : kv.1 ∉ rest.map Prod.fst := (List.nodup_cons.mp (by simpa using hnd)).1
    simp only [List.foldl_cons]
    by_cases hk : queryValKept kv.2 = true
    · rw [if_pos hk,
        recSet_of_not_has m kv.1 kv.2.jsToString (habs kv (List.mem_cons_self kv rest))]
      rw [ih (m ++ [(kv.1, kv.2.jsToString)]) hnd' ?_]
      · simp [List.filter_cons, hk, List.append_assoc]
      · intro kv' hkv'
        rw [recHas_append_singleton]
        have h1 : recHas m kv'.1 = false := habs kv' (List.mem_cons_of_mem kv hkv')
        have h2 : (kv.1 == kv'.1) = false := by
          refine beq_eq_false_iff_ne.mpr (fun hEq => hhead ?_)
          rw [hEq]
          exact List.mem_map_of_mem Prod.fst hkv'
        simp [h1, h2]
    · have hk' : queryValKept kv.2 = false := by simpa using hk
      rw [if_neg (by simp [hk'])]
      rw [ih m hnd' (fun kv' hkv' => habs kv' (List.mem_cons_of_mem kv hkv'))]
      simp [List.filter_cons, hk']

theorem str_append_ne_empty_left (s t : String) (h : s ≠ "") : (s ++ t) ≠ "" := by
  intro he
  have hd := congrArg String.data he
  rw [String.data_append] at hd
  have : s.data = [] := (List.append_eq_nil.mp hd).1
  exact h (String.ext this)

theorem encPair_ne_empty (a b : String) : (a ++ "=" ++ b) ≠ "" := by
  refine str_append_ne_empty_left (a ++ "=") b ?_
  intro he
  have hd := congrArg String.data he
  rw [String.data_append] at hd
  simp at hd

theorem joinWith_amp_ne_empty (x : String) (xs : List String) (hx : x ≠ "") :
    joinWith "&" (x :: xs) ≠ "" := by
  cases xs with
  | nil => exact hx
  | cons y ys =>
    show (x ++ "&" ++ joinWith "&" (y :: ys)) ≠ ""
    exact str_append_ne_empty_left (x ++ "&") _
      (str_append_ne_empty_left x "&" hx)

/-- Claim C7: URL query-string construction iterates `queryParams` in
insertion order, skips every null/undefined/empty-string value, percent-encodes
both key and string-coerced value, joins the survivors with `&`, and omits the
`?` entirely when nothing survives; in particular the spec's example
`{count:10, empty:"", nullish:null}` for `get_catalogs` yields exactly
`/catalogs?count=10`. -/
theorem c7_query_string_construction :
    (∀ (e : Endpoint) (qp : List (String × JVal))
       (bd : Option (List (String × JVal))),
      (qp.map Prod.fst).Nodup →
      buildUrl e { pathParams := [], queryParams := qp, body := bd } =
        (if ((qp.filter (fun kv => queryValKept kv.2)).isEmpty) then e.path
         else e.path ++ "?" ++ joinWith "&"
           ((qp.filter (fun kv => queryValKept kv.2)).map
             (fun kv =>
               encodeURIComponent kv.1 ++ "=" ++
                 encodeURIComponent kv.2.jsToString)))) ∧
    buildUrl getCatalogsEndpoint
      { pathParams := []
        queryParams := [("count", .vNum 10), ("empty", .vStr ""), ("nullish", .vNull)]
        body := none } = "/catalogs?count=10" := by
  constructor
  · intro e qp bd hnd
    unfold buildUrl
    simp only [List.foldl_nil]
    rw [buildUrl_query_fold qp [] hnd (fun kv _ => rfl), List.nil_append,
      List.map_map]
    have hfuse : ((fun kv : String × String =>
          encodeURIComponent kv.1 ++ "=" ++ encodeURIComponent kv.2) ∘
        (fun kv : String × JVal => (kv.1, kv.2.jsToString))) =
        (fun kv : String × JVal =>
          encodeURIComponent kv.1 ++ "=" ++ encodeURIComponent kv.2.jsToString) :=
      rfl
    rw [hfuse]
    cases hF : qp.filter (fun kv => queryValKept kv.2) with
    | nil => simp [joinWith]
    | cons f fs =>
      simp only [List.map_cons, List.isEmpty_cons, Bool.false_eq_true, if_false]
      have hne : (encodeURIComponent f.1 ++ "=" ++
          encodeURIComponent f.2.jsToString) ≠ "" := encPair_ne_empty _ _
      have hjoin := joinWith_amp_ne_empty _
        (fs.map (fun kv => encodeURIComponent kv.1 ++ "=" ++
          encodeURIComponent kv.2.jsToString)) hne
      rw [if_neg (by simpa using hjoin)]
  · rfl

theorem c7_query_string_construction_witness :
    (([("count", JVal.vNum 10), ("empty", JVal.vStr ""), ("nullish", JVal.vNull)].map
        Prod.fst).Nodup) ∧
    buildUrl getCatalogsEndpoint
      { pathParams := []
        queryParams := [("count", .vNum 10), ("empty", .vStr ""), ("nullish", .vNull)]
        body := none } =
      (if (([("count", JVal.vNum 10), ("empty", JVal.vStr ""),
            ("nullish", JVal.vNull)].filter (fun kv => queryValKept kv.2)).isEmpty)
       then getCatalogsEndpoint.path
       else getCatalogsEndpoint.path ++ "?" ++ joinWith "&"
         (([("count", JVal.vNum 10), ("empty", JVal.vStr ""),
            ("nullish", JVal.vNull)].filter (fun kv => queryValKept kv.2)).map
           (fun kv =>
             encodeURIComponent kv.1 ++ "=" ++
               encodeURIComponent kv.2.jsToString))) :=
  ⟨by decide,
    c7_query_string_construction.1 getCatalogsEndpoint
      [("count", .vNum 10), ("empty", .vStr ""), ("nullish", .vNull)] none
      (by decide)⟩

theorem prefMatches_append_self (p t : List Char) :
    prefMatches p (p ++ t) = true := by
  induction p with
  | nil => rfl
  | cons a as ih => simp [prefMatches, ih]

theorem replaceFirstL_at_boundary (k rep la lb : List Char)
    (hla : '{' ∉ la) :
    replaceFirstL ('{' :: k) rep (la ++ ('{' :: k) ++ lb) = la ++ rep ++ lb := by
  induction la with
  | nil =>
    have hm : prefMatches ('{' :: k) ('{' :: (k ++ lb)) = true := by
      simp [prefMatches, prefMatches_append_self]
    show replaceFirstL ('{' :: k) rep ('{' :: (k ++ lb)) = rep ++ lb
    simp [replaceFirstL, hm, List.drop_left]
  | cons c cs ih =>
    have hc : ('{' == c) = false := by
      refine beq_eq_false_iff_ne.mpr ?_
      intro he
      exact hla (by rw [he]; exact List.mem_cons_self c cs)
    have hnm : prefMatches ('{' :: k) (c :: (cs ++ ('{' :: k) ++ lb)) = false := by
      simp [prefMatches, hc]
    have hla' : '{' ∉ cs := fun h => hla (List.mem_cons_of_mem c h)
    show replaceFirstL ('{' :: k) rep (c :: (cs ++ ('{' :: k) ++ lb)) =
      c :: (cs ++ rep ++ lb)
    simp only [replaceFirstL, hnm, Bool.false_eq_true, if_false]
    exact congrArg (c :: ·) (ih hla')

theorem char_toNat_lt (c : Char) : c.toNat < 1114112 := by
  show c.val.toNat < 1114112
  rcases c.valid with h | h
  · omega
  · exact h.2

theorem utf8Bytes_lt (c : Char) : ∀ b ∈ utf8Bytes c, b < 256 := by
  intro b hb
  have hv := char_toNat_lt c
  unfold utf8Bytes at hb
  by_cases h1 : c.toNat < 0x80
  · simp only [h1, if_true] at hb
    simp at hb
    omega
  · simp only [h1, if_false] at hb
    by_cases h2 : c.toNat < 0x800
    · simp only [h2, if_true] at hb
      have hd : c.toNat / 64 < 32 := by omega
      have hm : c.toNat % 64 < 64 := Nat.mod_lt _ (by omega)
      simp at hb
      rcases hb with rfl | rfl <;> omega
    · simp only [h2, if_false] at hb
      by_cases h3 : c.toNat < 0x10000
      · simp only [h3, if_true] at hb
        have hd : c.toNat / 4096 < 16 := by omega
        have hm1 : (c.toNat / 64) % 64 < 64 := Nat.mod_lt _ (by omega)
        have hm2 : c.toNat % 64 < 64 := Nat.mod_lt _ (by omega)
        simp at hb
        rcases hb with rfl | rfl | rfl <;> omega
      · simp only [h3, if_false] at hb
        have hd : c.toNat / 0x40000 < 5 := by omega
        have hm1 : (c.toNat / 4096) % 64 < 64 := Nat.mod_lt _ (by omega)
        have hm2 : (c.toNat / 64) % 64 < 64 := Nat.mod_lt _ (by omega)
        have hm3 : c.toNat % 64 < 64 := Nat.mod_lt _ (by omega)
        simp at hb
        rcases hb with rfl | rfl | rfl | rfl <;> omega

theorem hexDigitUpper_ne_brace (n : Nat) (h : n < 16) : hexDigitUpper n ≠ '{' := by
  interval_cases n <;> decide

theorem brace_not_mem_encode (v : String) :
    '{' ∉ (encodeURIComponent v).data := by
  intro h
  have h' : '{' ∈ (v.data.map (fun c =>
      if uriUnreserved c then [c]
      else ((utf8Bytes c).map percentByte).flatten)).flatten := h
  rw [List.mem_flatten] at h'
  obtain ⟨piece, hpiece, hmem⟩ := h'
  rw [List.mem_map] at hpiece
  obtain ⟨c, _, rfl⟩ := hpiece
  by_cases hu : uriUnreserved c = true
  · simp only [hu, if_true] at hmem
    have hc : '{' = c := List.mem_singleton.mp hmem
    rw [← hc] at hu
    exact absurd hu (by decide)
  · simp only [hu, Bool.false_eq_true, if_false] at hmem
    rw [List.mem_flatten] at hmem
    obtain ⟨pb, hpb, hmem2⟩ := hmem
    rw [List.mem_map] at hpb
    obtain ⟨bN, hbN, rfl⟩ := hpb
    have hb256 : bN < 256 := utf8Bytes_lt c bN hbN
    simp only [percentByte, List.mem_cons, List.not_mem_nil, or_false] at hmem2
    rcases hmem2 with h | h | h
    · exact absurd h (by decide)
    · refine hexDigitUpper_ne_brace (bN / 16) ?_ h.symm
      have : bN / 16 < 16 := (Nat.div_lt_iff_lt_mul (by omega)).mpr (by omega)
      exact this
    · exact hexDigitUpper_ne_brace (bN % 16) (Nat.mod_lt _ (by omega)) h.symm

theorem brace_pat_data (k : String) :
    ("\x7b" ++ k ++ "\x7d").data = '{' :: (k.data ++ ['}']) := by
  rw [String.data_append, String.data_append,
    show ("\x7b" : String).data = ['{'] from rfl,
    show ("\x7d" : String).data = ['}'] from rfl]
  rfl

theorem jsReplaceFirst_template (a k v b : String) (hla : '{' ∉ a.data) :
    jsReplaceFirst (a ++ "\x7b" ++ k ++ "\x7d" ++ b) ("\x7b" ++ k ++ "\x7d")
      (encodeURIComponent v) = a ++ encodeURIComponent v ++ b := by
  refine String.ext ?_
  show replaceFirstL ("\x7b" ++ k ++ "\x7d").data (encodeURIComponent v).data
      (a ++ "\x7b" ++ k ++ "\x7d" ++ b).data = (a ++ encodeURIComponent v ++ b).data
  rw [brace_pat_data]
  have hs : (a ++ "\x7b" ++ k ++ "\x7d" ++ b).data =
      (a.data ++ ('{' :: (k.data ++ ['}']))) ++ b.data := by
    rw [String.data_append, String.data_append, String.data_append,
      String.data_append, show ("\x7b" : String).data = ['{'] from rfl,
      show ("\x7d" : String).data = ['}'] from rfl]
    simp [List.append_assoc]
  rw [hs,
    replaceFirstL_at_boundary (k.data ++ ['}']) (encodeURIComponent v).data
      a.data b.data hla,
    String.data_append, String.data_append]

theorem buildUrl_no_query (e : Endpoint) (pp : List (String × String))
    (bd : Option (List (String × JVal))) :
    buildUrl e { pathParams := pp, queryParams := [], body := bd } =
      pp.foldl (fun p kv =>
        jsReplaceFirst p ("\x7b" ++ kv.1 ++ "\x7d") (encodeURIComponent kv.2)) e.path := by
  unfold buildUrl
  simp [joinWith]

/-- Claim C8: path construction replaces each `{param}` placeholder of the
descriptor's path (its first occurrence) with the percent-encoded value from
`pathParams` — shown for one and for two placeholders with brace-free
surrounding segments — and a placeholder with no corresponding `pathParams`
entry is left in the resulting URL unchanged. -/
theorem c8_path_templating :
    (∀ (e : Endpoint) (a k v b : String) (bd : Option (List (String × JVal))),
      e.path = a ++ "\x7b" ++ k ++ "\x7d" ++ b → '{' ∉ a.data →
      buildUrl e { pathParams := [(k, v)], queryParams := [], body := bd } =
        a ++ encodeURIComponent v ++ b) ∧
    (∀ (e : Endpoint) (a k1 v1 b k2 v2 cSeg : String)
       (bd : Option (List (String × JVal))),
      e.path = a ++ "\x7b" ++ k1 ++ "\x7d" ++ b ++ "\x7b" ++ k2 ++ "\x7d" ++ cSeg →
      '{' ∉ a.data → '{' ∉ b.data →
      buildUrl e { pathParams := [(k1, v1), (k2, v2)], queryParams := [], body := bd } =
        a ++ encodeURIComponent v1 ++ b ++ encodeURIComponent v2 ++ cSeg) ∧
    (∀ (e : Endpoint) (bd : Option (List (String × JVal))),
      buildUrl e { pathParams := [], queryParams := [], body := bd } = e.path) := by
  refine ⟨?_, ?_, ?_⟩
  · intro e a k v b bd hpath hla
    rw [buildUrl_no_query]
    simp only [List.foldl_cons, List.foldl_nil]
    rw [hpath]
    exact jsReplaceFirst_template a k v b hla
  · intro e a k1 v1 b k2 v2 cSeg bd hpath hla hlb
    rw [buildUrl_no_query]
    simp only [List.foldl_cons, List.foldl_nil]
    rw [hpath]
    have hg1 : a ++ "\x7b" ++ k1 ++ "\x7d" ++ b ++ "\x7b" ++ k2 ++ "\x7d" ++ cSeg =
        a ++ "\x7b" ++ k1 ++ "\x7d" ++ (b ++ "\x7b" ++ k2 ++ "\x7d" ++ cSeg) := by
      simp [String.append_assoc]
    rw [hg1, jsReplaceFirst_template a k1 v1 (b ++ "\x7b" ++ k2 ++ "\x7d" ++ cSeg) hla]
    have hg2 : a ++ encodeURIComponent v1 ++ (b ++ "\x7b" ++ k2 ++ "\x7d" ++ cSeg) =
        (a ++ encodeURIComponent v1 ++ b) ++ "\x7b" ++ k2 ++ "\x7d" ++ cSeg := by
      simp [String.append_assoc]
    rw [hg2]
    have hA : '{' ∉ (a ++ encodeURIComponent v1 ++ b).data := by
      rw [String.data_append, String.data_append]
      intro hm
      rcases List.mem_append.mp hm with hm | hm
      · rcases List.mem_append.mp hm with hm | hm
        · exact hla hm
        · exact brace_not_mem_encode v1 hm
      · exact hlb hm
    rw [jsReplaceFirst_template (a ++ encodeURIComponent v1 ++ b) k2 v2 cSeg hA]
  · intro e bd
    rw [buildUrl_no_query]
    rfl

theorem c8_path_templating_witness :
    ({ getCatalogsEndpoint with path := "/products/{product_id}" } : Endpoint).path =
      "/products/" ++ "\x7b" ++ "product_id" ++ "\x7d" ++ "" ∧
    '{' ∉ ("/products/" : String).data ∧
    buildUrl { getCatalogsEndpoint with path := "/products/{product_id}" }
      { pathParams := [("product_id", "product with spaces")]
        queryParams := [], body := none } =
      "/products/" ++ encodeURIComponent "product with spaces" ++ "" ∧
    "/products/" ++ encodeURIComponent "product with spaces" ++ "" =
      "/products/product%20with%20spaces" :=
  ⟨rfl, by decide,
    c8_path_templating.1 { getCatalogsEndpoint with path := "/products/{product_id}" }
      "/products/" "product_id" "product with spaces" "" none rfl (by decide),
    by decide⟩
